import Mathlib

/-!
# Verification of the Annotation_website front-end core

Shallow embedding of the annotation web application's core logic
(bounds parsing, element classification and priority, color mapping,
coordinate scaling, hit testing, the JSON-dump ingestion pipeline,
the annotation export payload builder, the database-save control flow,
and the project-identity scheme), together with theorems settling the
specification's claims about them.

JavaScript numbers are modelled as `Int`/`Nat`/`Rat` (no float rounding
is exercised by any claim), JS strings as `String`, dynamic JSON values
as an inductive `JValue`, and `===` between differently-typed values as
a strict equality test that is `false` across types.
-/

namespace Annot

/-- A rectangle `{x1, y1, x2, y2}` as produced by the bounds parser and
carried on every element (`bounds` fields of `FileUpload.jsx` /
`canvasUtils.js`). Fields are integers (JS numbers holding integral
pixel coordinates). -/
structure Bounds where
  x1 : Int
  y1 : Int
  x2 : Int
  y2 : Int
deriving DecidableEq, Repr

/-! ## Bounds parser (`parseBounds`, FileUpload.jsx lines 80–97)

The JS code runs `boundsStr.match(/\[(\d+),(\d+)\]\[(\d+),(\d+)\]/)`.
`String.prototype.match` with an unanchored regex finds the leftmost
occurrence of the pattern anywhere in the string.  At a fixed start
position the match is deterministic: each `\d+` is a maximal nonempty
ASCII-digit run (backtracking to a shorter run cannot help, because the
following character would then be a digit, never the required `,` `]`
delimiter).  The embedding below scans positions left to right and at
each position runs exactly that deterministic pattern matcher. -/

/-- Decimal value of a digit-character run, as `parseInt` computes it on
an all-digit string. -/
def parseNatDigits (ds : List Char) : Nat :=
  ds.foldl (fun a c => a * 10 + (c.toNat - '0'.toNat)) 0

/-- Consume a maximal nonempty digit run (`\d+`) from the front,
returning its numeric value and the remainder; fails on an empty run. -/
def expectNum (l : List Char) : Option (Nat × List Char) :=
  if (l.takeWhile Char.isDigit).isEmpty then none
  else some (parseNatDigits (l.takeWhile Char.isDigit),
             l.drop (l.takeWhile Char.isDigit).length)

/-- Consume one expected literal character from the front. -/
def expectChar (c : Char) : List Char → Option (List Char)
  | [] => none
  | x :: xs => if x = c then some xs else none

/-- Match `[d1,d2][d3,d4]` at the head of `l`; on success return the four
parsed numbers and the unconsumed remainder (the regex is not anchored
on the right, so trailing characters are ignored). -/
def matchBoundsCore (l : List Char) : Option (Bounds × List Char) := do
  let l ← expectChar '[' l
  let (x1, l) ← expectNum l
  let l ← expectChar ',' l
  let (y1, l) ← expectNum l
  let l ← expectChar ']' l
  let l ← expectChar '[' l
  let (x2, l) ← expectNum l
  let l ← expectChar ',' l
  let (y2, l) ← expectNum l
  let l ← expectChar ']' l
  pure (⟨(x1 : Int), (y1 : Int), (x2 : Int), (y2 : Int)⟩, l)

/-- Leftmost-match scan of the pattern, as `String.prototype.match` with
an unanchored regex performs it. -/
def scanBounds : List Char → Option Bounds
  | [] => none
  | c :: cs =>
    match matchBoundsCore (c :: cs) with
    | some (b, _) => some b
    | none => scanBounds cs

/-- Embedding of `parseBounds` (FileUpload.jsx): regex-match the bounds pattern
against the string and build the rectangle from the four captures;
`null` (here `none`) when the regex does not match anywhere. -/
def parseBounds (s : String) : Option Bounds :=
  scanBounds s.data

/-- The bounds grammar as the specification words it: the *entire*
string must be the two-pair bracketed pattern `[x1,y1][x2,y2]`
(no surrounding characters).  Spec-side definition used to compare the
implementation against the claim. -/
def specParseBounds (s : String) : Option Bounds :=
  match matchBoundsCore s.data with
  | some (b, []) => some b
  | _ => none

/-! ### Parser lemmas -/

lemma expectChar_cons_self (c : Char) (xs : List Char) :
    expectChar c (c :: xs) = some xs := by
  simp [expectChar]

lemma expectChar_cons_ne (c x : Char) (h : x ≠ c) (xs : List Char) :
    expectChar c (x :: xs) = none := by
  simp [expectChar, h]

lemma takeWhile_digits_append (ds : List Char) (hd : ∀ c ∈ ds, c.isDigit)
    (c : Char) (hc : ¬ c.isDigit = true) (rest : List Char) :
    (ds ++ c :: rest).takeWhile Char.isDigit = ds := by
  induction ds with
  | nil => simp [List.takeWhile_cons, hc]
  | cons a as ih =>
    have ha : a.isDigit := hd a (by simp)
    simp [List.takeWhile_cons, ha, ih (fun x hx => hd x (by simp [hx]))]

lemma expectNum_append (ds : List Char) (h : ds ≠ [])
    (hd : ∀ c ∈ ds, c.isDigit) (c : Char) (hc : ¬ c.isDigit = true)
    (rest : List Char) :
    expectNum (ds ++ c :: rest) = some (parseNatDigits ds, c :: rest) := by
  unfold expectNum
  rw [takeWhile_digits_append ds hd c hc rest]
  simp [h, List.drop_left]

/-- The matcher `matchBoundsCore` succeeds on the exact pattern followed by anything:
the regex is unanchored on the right. -/
lemma matchBoundsCore_pattern (d1 d2 d3 d4 suf : List Char)
    (h1 : d1 ≠ []) (hd1 : ∀ c ∈ d1, c.isDigit)
    (h2 : d2 ≠ []) (hd2 : ∀ c ∈ d2, c.isDigit)
    (h3 : d3 ≠ []) (hd3 : ∀ c ∈ d3, c.isDigit)
    (h4 : d4 ≠ []) (hd4 : ∀ c ∈ d4, c.isDigit) :
    matchBoundsCore
      ('[' :: (d1 ++ ',' :: (d2 ++ ']' :: '[' ::
        (d3 ++ ',' :: (d4 ++ ']' :: suf))))) =
      some (⟨(parseNatDigits d1 : Int), (parseNatDigits d2 : Int),
             (parseNatDigits d3 : Int), (parseNatDigits d4 : Int)⟩, suf) := by
  simp only [matchBoundsCore,
    expectChar_cons_self,
    expectNum_append d1 h1 hd1 ',' (by decide),
    expectNum_append d2 h2 hd2 ']' (by decide),
    expectNum_append d3 h3 hd3 ',' (by decide),
    expectNum_append d4 h4 hd4 ']' (by decide),
    Option.bind_eq_bind', Option.some_bind, Option.pure_def]

/-- A position whose character is not `[` can never start a match. -/
lemma matchBoundsCore_ne_bracket (c : Char) (h : c ≠ '[') (cs : List Char) :
    matchBoundsCore (c :: cs) = none := by
  simp only [matchBoundsCore, expectChar_cons_ne '[' c h,
    Option.bind_eq_bind', Option.none_bind]

/-- Scanning skips over any prefix that contains no `[`. -/
lemma scanBounds_append_of_no_bracket (pre l : List Char) (h : '[' ∉ pre) :
    scanBounds (pre ++ l) = scanBounds l := by
  induction pre with
  | nil => rfl
  | cons c cs ih =>
    have hc : c ≠ '[' := fun e => h (by simp [e])
    have hrest : '[' ∉ cs := fun hx => h (List.mem_cons_of_mem _ hx)
    simp [scanBounds, matchBoundsCore_ne_bracket c hc, ih hrest]

lemma scanBounds_no_bracket (l : List Char) (h : '[' ∉ l) :
    scanBounds l = none := by
  have h2 := scanBounds_append_of_no_bracket l [] h
  rw [List.append_nil] at h2
  simpa [scanBounds] using h2

/-- C1 counterexample: the regex in `parseBounds` is not anchored, so a
string with extra surrounding characters still yields a rectangle, while
the spec's exact two-pair pattern (`specParseBounds`) rejects it. -/
theorem parseBounds_anchoring_counterexample :
    parseBounds "a[1,2][3,4]" = some ⟨1, 2, 3, 4⟩ ∧
    specParseBounds "a[1,2][3,4]" = none ∧
    parseBounds "a[1,2][3,4]" ≠ specParseBounds "a[1,2][3,4]" := by
  refine ⟨by decide, by decide, by decide⟩

/-- A successful `expectChar` consumed exactly its expected character. -/
lemma expectChar_eq_some (c : Char) (l r : List Char)
    (h : expectChar c l = some r) : l = c :: r := by
  cases l with
  | nil => simp [expectChar] at h
  | cons x xs =>
    by_cases hx : x = c
    · subst hx
      rw [expectChar_cons_self, Option.some.injEq] at h
      rw [h]
    · rw [expectChar_cons_ne c x hx] at h
      exact absurd h (by simp)

/-- A successful `expectNum` consumed a nonempty all-digit prefix whose
decimal value it returned. -/
lemma expectNum_eq_some (l : List Char) (n : Nat) (r : List Char)
    (h : expectNum l = some (n, r)) :
    ∃ ds : List Char, ds ≠ [] ∧ (∀ c ∈ ds, c.isDigit) ∧
      parseNatDigits ds = n ∧ l = ds ++ r := by
  unfold expectNum at h
  by_cases he : (l.takeWhile Char.isDigit).isEmpty
  · rw [if_pos he] at h
    exact absurd h (by simp)
  · rw [if_neg he, Option.some.injEq, Prod.mk.injEq] at h
    obtain ⟨hn, hr⟩ := h
    obtain ⟨u, hu⟩ := List.takeWhile_prefix (l := l) Char.isDigit
    have hgen : ∀ t v : List Char, t ++ v = l → l = t ++ l.drop t.length := by
      intro t v htv
      rw [← htv, List.drop_left]
    refine ⟨l.takeWhile Char.isDigit, by simpa [List.isEmpty_iff] using he,
      fun c hc => List.mem_takeWhile_imp hc, hn, ?_⟩
    rw [← hr]
    exact hgen _ u hu

/-- Shape of a successful match: the input is exactly the two-pair
bracketed pattern over four nonempty digit runs, followed by the
returned remainder, and the rectangle holds the runs' decimal values. -/
lemma matchBoundsCore_some_shape (l : List Char) (b : Bounds) (r : List Char)
    (h : matchBoundsCore l = some (b, r)) :
    ∃ d1 d2 d3 d4 : List Char,
      d1 ≠ [] ∧ (∀ c ∈ d1, c.isDigit) ∧
      d2 ≠ [] ∧ (∀ c ∈ d2, c.isDigit) ∧
      d3 ≠ [] ∧ (∀ c ∈ d3, c.isDigit) ∧
      d4 ≠ [] ∧ (∀ c ∈ d4, c.isDigit) ∧
      l = '[' :: (d1 ++ ',' :: (d2 ++ ']' :: '[' ::
        (d3 ++ ',' :: (d4 ++ ']' :: r)))) ∧
      b = ⟨(parseNatDigits d1 : Int), (parseNatDigits d2 : Int),
           (parseNatDigits d3 : Int), (parseNatDigits d4 : Int)⟩ := by
  simp only [matchBoundsCore, Option.bind_eq_bind', Option.bind_eq_some,
    Option.pure_def, Option.some.injEq] at h
  obtain ⟨l1, hc1, h⟩ := h
  obtain ⟨⟨x1, l2⟩, he1, h⟩ := h
  obtain ⟨l3, hc2, h⟩ := h
  obtain ⟨⟨y1, l4⟩, he2, h⟩ := h
  obtain ⟨l5, hc3, h⟩ := h
  obtain ⟨l6, hc4, h⟩ := h
  obtain ⟨⟨x2, l7⟩, he3, h⟩ := h
  obtain ⟨l8, hc5, h⟩ := h
  obtain ⟨⟨y2, l9⟩, he4, h⟩ := h
  obtain ⟨l10, hc6, hfin⟩ := h
  rw [Prod.mk.injEq] at hfin
  obtain ⟨hb, hr⟩ := hfin
  obtain ⟨d1, h1ne, h1dig, h1val, h1split⟩ := expectNum_eq_some l1 x1 l2 he1
  obtain ⟨d2, h2ne, h2dig, h2val, h2split⟩ := expectNum_eq_some l3 y1 l4 he2
  obtain ⟨d3, h3ne, h3dig, h3val, h3split⟩ := expectNum_eq_some l6 x2 l7 he3
  obtain ⟨d4, h4ne, h4dig, h4val, h4split⟩ := expectNum_eq_some l8 y2 l9 he4
  refine ⟨d1, d2, d3, d4, h1ne, h1dig, h2ne, h2dig, h3ne, h3dig, h4ne, h4dig,
    ?_, ?_⟩
  · rw [expectChar_eq_some '[' l l1 hc1, h1split,
      expectChar_eq_some ',' l2 l3 hc2, h2split,
      expectChar_eq_some ']' l4 l5 hc3,
      expectChar_eq_some '[' l5 l6 hc4, h3split,
      expectChar_eq_some ',' l7 l8 hc5, h4split,
      expectChar_eq_some ']' l9 l10 hc6, hr]
  · rw [← hb, h1val, h2val, h3val, h4val]

/-- A position at which the pattern matches makes the whole scan
succeed, whatever precedes it. -/
lemma scanBounds_isSome_of_match (pre rest : List Char) (b : Bounds)
    (r : List Char) (h : matchBoundsCore rest = some (b, r)) :
    (scanBounds (pre ++ rest)).isSome = true := by
  induction pre with
  | nil =>
    cases rest with
    | nil => simp [matchBoundsCore, expectChar] at h
    | cons c cs => simp [scanBounds, h]
  | cons p ps ih =>
    rcases hm : matchBoundsCore (p :: (ps ++ rest)) with _ | pr
    · simpa [scanBounds, hm] using ih
    · simp [scanBounds, hm]

/-- A successful scan decomposes the input into a scanned-over prefix
and a position at which the pattern matches. -/
lemma scanBounds_some_decomp (l : List Char) (b : Bounds)
    (h : scanBounds l = some b) :
    ∃ pre rest r, l = pre ++ rest ∧ matchBoundsCore rest = some (b, r) := by
  induction l with
  | nil => simp [scanBounds] at h
  | cons c cs ih =>
    rcases hm : matchBoundsCore (c :: cs) with _ | pr
    · simp only [scanBounds, hm] at h
      obtain ⟨pre, rest, r, hsplit, hmatch⟩ := ih h
      exact ⟨c :: pre, rest, r, by rw [hsplit]; rfl, hmatch⟩
    · obtain ⟨b', r⟩ := pr
      simp only [scanBounds, hm, Option.some.injEq] at h
      subst h
      exact ⟨[], c :: cs, r, rfl, hm⟩

/-- The string contains an occurrence of the exact two-pair bracketed
pattern as a substring (`specParseBounds` accepts some core slice). -/
def containsPattern (s : String) : Prop :=
  ∃ pre core suf : List Char,
    s.data = pre ++ core ++ suf ∧ (specParseBounds ⟨core⟩).isSome = true

/-- C1 (amended): `parseBounds` succeeds exactly on the strings that
contain an occurrence of the two-pair bracketed pattern `[x1,y1][x2,y2]`
as a substring — so every string with no complete occurrence (missing
bracket such as `"[0,0][50,20"`, non-numeric, wrong arity) still yields
no rectangle — and on success the four fields are the integers written
in the leftmost occurrence, so exact-pattern strings round-trip and
extra surrounding characters do not cause failure. -/
theorem parseBounds_substring_amended :
    (∀ s : String, (parseBounds s).isSome = true ↔ containsPattern s) ∧
    (∀ (pre suf : String) (d1 d2 d3 d4 : List Char),
      '[' ∉ pre.data →
      d1 ≠ [] → (∀ c ∈ d1, c.isDigit) →
      d2 ≠ [] → (∀ c ∈ d2, c.isDigit) →
      d3 ≠ [] → (∀ c ∈ d3, c.isDigit) →
      d4 ≠ [] → (∀ c ∈ d4, c.isDigit) →
      parseBounds ⟨pre.data ++ '[' :: (d1 ++ ',' :: (d2 ++ ']' :: '[' ::
          (d3 ++ ',' :: (d4 ++ ']' :: suf.data))))⟩ =
        some ⟨(parseNatDigits d1 : Int), (parseNatDigits d2 : Int),
              (parseNatDigits d3 : Int), (parseNatDigits d4 : Int)⟩) := by
  constructor
  · intro s
    constructor
    · intro hs
      rcases hb : parseBounds s with _ | b
      · rw [hb] at hs
        simp at hs
      · obtain ⟨pre, rest, r, hsplit, hmatch⟩ :=
          scanBounds_some_decomp s.data b hb
        obtain ⟨d1, d2, d3, d4, h1, hd1, h2, hd2, h3, hd3, h4, hd4,
          hshape, -⟩ := matchBoundsCore_some_shape rest b r hmatch
        have hcr : ('[' :: (d1 ++ ',' :: (d2 ++ ']' :: '[' ::
            (d3 ++ ',' :: (d4 ++ ']' :: []))))) ++ r =
            '[' :: (d1 ++ ',' :: (d2 ++ ']' :: '[' ::
              (d3 ++ ',' :: (d4 ++ ']' :: r)))) := by
          simp [List.append_assoc]
        refine ⟨pre, '[' :: (d1 ++ ',' :: (d2 ++ ']' :: '[' ::
          (d3 ++ ',' :: (d4 ++ ']' :: [])))), r, ?_, ?_⟩
        · rw [hsplit, hshape, List.append_assoc, hcr]
        · have hp := matchBoundsCore_pattern d1 d2 d3 d4 []
            h1 hd1 h2 hd2 h3 hd3 h4 hd4
          simp [specParseBounds, hp]
    · rintro ⟨pre, core, suf, hsplit, hcore⟩
      rcases hm : matchBoundsCore core with _ | pr
      · simp [specParseBounds, hm] at hcore
      · obtain ⟨b, r⟩ := pr
        cases r with
        | cons c cs => simp [specParseBounds, hm] at hcore
        | nil =>
          obtain ⟨d1, d2, d3, d4, h1, hd1, h2, hd2, h3, hd3, h4, hd4,
            hshape, hb⟩ := matchBoundsCore_some_shape core b [] hm
          have hstab : matchBoundsCore (core ++ suf) = some (b, suf) := by
            have hl : core ++ suf = '[' :: (d1 ++ ',' :: (d2 ++ ']' :: '[' ::
                (d3 ++ ',' :: (d4 ++ ']' :: suf)))) := by
              rw [hshape]
              simp [List.append_assoc]
            rw [hl, hb]
            exact matchBoundsCore_pattern d1 d2 d3 d4 suf
              h1 hd1 h2 hd2 h3 hd3 h4 hd4
          have hscan := scanBounds_isSome_of_match pre (core ++ suf) b suf hstab
          show (scanBounds s.data).isSome = true
          rw [hsplit, List.append_assoc]
          exact hscan
  · intro pre suf d1 d2 d3 d4 hpre h1 hd1 h2 hd2 h3 hd3 h4 hd4
    show scanBounds _ = _
    rw [scanBounds_append_of_no_bracket pre.data _ hpre]
    simp [scanBounds,
      matchBoundsCore_pattern d1 d2 d3 d4 suf.data h1 hd1 h2 hd2 h3 hd3 h4 hd4]

/-- Witness for the amended C1 theorem at concrete inputs, including the
missing-final-bracket string `"[0,0][50,20"`, which contains `[` but no
complete occurrence of the pattern and therefore parses to nothing. -/
theorem parseBounds_substring_amended_witness :
    parseBounds "a[1,2][3,4]z" = some ⟨1, 2, 3, 4⟩ ∧
    parseBounds "[0,0][50,20" = none ∧
    containsPattern "a[1,2][3,4]z" := by
  have h := parseBounds_substring_amended
  have h1 := h.2 "a" "z" ['1'] ['2'] ['3'] ['4'] (by decide) (by decide)
    (by decide) (by decide) (by decide) (by decide) (by decide)
    (by decide) (by decide)
  refine ⟨?_, by decide, (h.1 "a[1,2][3,4]z").mp (by decide)⟩
  rw [show (⟨"a".data ++ '[' :: (['1'] ++ ',' :: (['2'] ++ ']' :: '[' ::
      (['3'] ++ ',' :: (['4'] ++ ']' :: "z".data))))⟩ : String) =
      "a[1,2][3,4]z" from by decide] at h1
  rw [h1]
  decide

/-! ## Dynamic JSON values

`JValue` models a parsed JSON value as JavaScript sees it.  `JSVal`
models the value of a dynamically-typed JS expression where a claim
depends on its runtime type (`===` is type-strict). -/

inductive JValue where
  | null
  | bool (b : Bool)
  | num (n : Int)
  | str (s : String)
  | arr (xs : List JValue)
  | obj (fields : List (String × JValue))
deriving Repr

/-- Property lookup on a JS object literal: first binding wins
(duplicate keys cannot arise from `JSON.parse`, which keeps the last,
but dumps carry unique keys; the model reads the first). -/
def jsLookup (fields : List (String × JValue)) (key : String) : Option JValue :=
  (fields.find? (fun f => f.1 == key)).map (·.2)

/-- JS truthiness of a value (`if (x)`): `null`, `false`, `0` and `""`
are falsy; objects and arrays are always truthy. -/
def truthy : JValue → Bool
  | .null => false
  | .bool b => b
  | .num n => !(n == 0)
  | .str s => !s.isEmpty
  | .arr _ => true
  | .obj _ => true

/-- A dynamically-typed JS value carried on an element record. -/
inductive JSVal where
  | undef
  | bool (b : Bool)
  | str (s : String)
deriving DecidableEq, Repr

/-- JS strict equality `===`: values of different runtime types are
never equal. -/
def jsStrictEq : JSVal → JSVal → Bool
  | .bool a, .bool b => a == b
  | .str a, .str b => a == b
  | .undef, .undef => true
  | _, _ => false

/-- Evaluation of `elementData.x === 'true'` on a (possibly absent) JSON field:
strictly equal to the string only when the field is that string. -/
def jsFieldEqTrue (v : Option JValue) : Bool :=
  match v with
  | some (.str s) => s == "true"
  | _ => false

/-- Evaluation of `elementData.x || ''` restricted to the string-typed wire fields the
claims exercise: a present nonempty string is kept, anything else
(absent, empty, non-string) is modelled as `''`. -/
def jsStrOrEmpty (v : Option JValue) : String :=
  match v with
  | some (.str s) => s
  | _ => ""

/-- The call `parseBounds(elementData.bounds)` as made inside `processJsonData`: `boundsStr.match`
throws a `TypeError` on a non-string receiver, which the `try` inside
`parseBounds` catches, returning `null`. -/
def parseBoundsJS : JValue → Option Bounds
  | .str s => parseBounds s
  | _ => none

/-! ## Element records (`processJsonData`, FileUpload.jsx lines 36–47)

The ingested element: string metadata fields default to `''` via `||`,
and the four wire booleans are converted with `=== 'true'`, producing
genuine JS booleans.  `clickable` is kept as a `JSVal` because
`colorMapping.js` later compares it with `=== 'true'` again — a
comparison whose outcome depends on its runtime type. -/

structure Element where
  id : String
  bounds : Bounds
  elemClass : String
  text : String
  resourceId : String
  contentDesc : String
  clickable : JSVal
  enabled : Bool
  visible : Bool
  focused : Bool
deriving Repr

/-- The element literal built in the loop body of `processJsonData`. -/
def mkElement (elementId : String) (elementData : List (String × JValue))
    (bounds : Bounds) : Element :=
  { id := elementId
    bounds := bounds
    elemClass := jsStrOrEmpty (jsLookup elementData "class")
    text := jsStrOrEmpty (jsLookup elementData "text")
    resourceId := jsStrOrEmpty (jsLookup elementData "resource-id")
    contentDesc := jsStrOrEmpty (jsLookup elementData "content-desc")
    clickable := .bool (jsFieldEqTrue (jsLookup elementData "clickable"))
    enabled := jsFieldEqTrue (jsLookup elementData "enabled")
    visible := jsFieldEqTrue (jsLookup elementData "visible-to-user")
    focused := jsFieldEqTrue (jsLookup elementData "focused") }

/-! ## `processJsonData` (FileUpload.jsx lines 17–78)

The loop body calls `elements.append(element)` — JavaScript arrays have
`push`, not `append`, so the call throws
`TypeError: elements.append is not a function`, which the surrounding
`try` catches.  Accessing `.bounds` on a `null` entry value likewise
throws (`typeof null === 'object'` passes the guard).  The embedding
makes each throw an `Except.error` carrying the JS error message. -/

/-- The element-accumulation loop.  `elements` is the accumulator array;
the qualifying branch faithfully performs the `elements.append(element)`
call, i.e. throws. -/
def processEntries :
    List (String × JValue) → List Element → Except String (List Element)
  | [], elements => .ok elements
  | (elementId, elementData) :: rest, elements =>
    match elementData with
    | .null =>
      -- typeof null === 'object', then `null.bounds` throws
      .error "Cannot read properties of null (reading 'bounds')"
    | .obj fields =>
      match jsLookup fields "bounds" with
      | none => processEntries rest elements
      | some bv =>
        if truthy bv then
          match parseBoundsJS bv with
          | some bounds =>
            let _element := mkElement elementId fields bounds
            .error "elements.append is not a function"
          | none => processEntries rest elements
        else processEntries rest elements
    | .arr _ => processEntries rest elements  -- `.bounds` is undefined
    | _ => processEntries rest elements       -- typeof not 'object'

/-- The application-state fields `processJsonData` touches. -/
structure AppState where
  uiElements : List Element
  selectedElements : List String
  error : Option String
deriving Repr

/-- Embedding of `Object.entries(data)` for the value shapes `JSON.parse` can
produce; throws on `null` (and `undefined`). -/
def jsEntries : JValue → Except String (List (String × JValue))
  | .null => .error "Cannot convert undefined or null to object"
  | .obj fields => .ok fields
  | .arr xs => .ok (xs.enum.map (fun p => (toString p.1, p.2)))
  | _ => .ok []

/-- Embedding of `processJsonData` on already-parsed JSON `data`: on any thrown error
the catch block records the message and leaves `uiElements` and
`selectedElements` untouched; on success it commits the accumulated
element list (and selects all of its ids). -/
def processJsonData (st : AppState) (data : JValue) : AppState :=
  match (do processEntries (← jsEntries data) []) with
  | .error e =>
    { st with error := some ("JSON processing failed: " ++ e) }
  | .ok elements =>
    { uiElements := elements
      selectedElements := elements.map (·.id)
      error := none }

/-- An entry whose value is an object carrying a parseable bounds
string — the condition under which the loop body reaches the
`elements.append` call. -/
def hasParseableEntry (entries : List (String × JValue)) : Bool :=
  entries.any (fun e =>
    match e.2 with
    | .obj fields =>
      match jsLookup fields "bounds" with
      | some bv => truthy bv && (parseBoundsJS bv).isSome
      | none => false
    | _ => false)

/-! ### Ingestion lemmas -/

/-- If the loop completes without throwing, the accumulator is exactly
what it started as: the `append` branch (the only one that would grow
it) always throws instead. -/
lemma processEntries_ok (entries : List (String × JValue))
    (acc res : List Element) (h : processEntries entries acc = .ok res) :
    res = acc := by
  induction entries generalizing acc with
  | nil => simpa [processEntries] using h.symm
  | cons e rest ih =>
    obtain ⟨elementId, elementData⟩ := e
    match elementData with
    | .null => simp [processEntries] at h
    | .bool b => exact ih acc (by simpa [processEntries] using h)
    | .num n => exact ih acc (by simpa [processEntries] using h)
    | .str s => exact ih acc (by simpa [processEntries] using h)
    | .arr xs => exact ih acc (by simpa [processEntries] using h)
    | .obj fields =>
      rw [processEntries] at h
      rcases hb : jsLookup fields "bounds" with _ | bv
      · rw [hb] at h; exact ih acc h
      · simp only [hb] at h
        by_cases ht : truthy bv = true
        · rw [if_pos ht] at h
          rcases hp : parseBoundsJS bv with _ | bounds
          · rw [hp] at h; exact ih acc h
          · simp only [hp] at h
            exact Except.noConfusion h
        · rw [if_neg ht] at h; exact ih acc h

/-- If some entry qualifies (object value with a truthy, parseable
bounds string), the loop throws before completing. -/
lemma processEntries_error_of_parseable (entries : List (String × JValue))
    (h : hasParseableEntry entries = true) (acc : List Element) :
    ∃ msg, processEntries entries acc = .error msg := by
  induction entries generalizing acc with
  | nil => simp [hasParseableEntry] at h
  | cons e rest ih =>
    obtain ⟨elementId, elementData⟩ := e
    match elementData with
    | .null => exact ⟨_, by rw [processEntries]⟩
    | .bool b =>
      simp only [hasParseableEntry, List.any_cons] at h
      exact ih (by simpa [hasParseableEntry] using h) acc
    | .num n =>
      simp only [hasParseableEntry, List.any_cons] at h
      exact ih (by simpa [hasParseableEntry] using h) acc
    | .str s =>
      simp only [hasParseableEntry, List.any_cons] at h
      exact ih (by simpa [hasParseableEntry] using h) acc
    | .arr xs =>
      simp only [hasParseableEntry, List.any_cons] at h
      exact ih (by simpa [hasParseableEntry] using h) acc
    | .obj fields =>
      rw [processEntries]
      rcases hb : jsLookup fields "bounds" with _ | bv
      · refine ih ?_ acc
        simp only [hasParseableEntry, List.any_cons, hb] at h
        simpa [hasParseableEntry] using h
      · simp only [hb]
        by_cases ht : truthy bv = true
        · rw [if_pos ht]
          rcases hp : parseBoundsJS bv with _ | bounds
          · refine ih ?_ acc
            simp only [hasParseableEntry, List.any_cons, hb, hp, ht] at h
            simpa [hasParseableEntry] using h
          · exact ⟨_, rfl⟩
        · rw [if_neg ht]
          refine ih ?_ acc
          rw [Bool.not_eq_true] at ht
          simp only [hasParseableEntry, List.any_cons, hb, ht,
            Bool.false_and, Bool.false_or] at h
          simpa [hasParseableEntry] using h

/-- Unfolding of `processJsonData` on an object dump. -/
lemma processJsonData_obj (st : AppState) (fields : List (String × JValue)) :
    processJsonData st (.obj fields) =
      match processEntries fields [] with
      | .error e => { st with error := some ("JSON processing failed: " ++ e) }
      | .ok elements =>
        { uiElements := elements
          selectedElements := elements.map (·.id)
          error := none } := rfl

/-- C2: `processJsonData` never commits a non-empty element list.  If
the dump has at least one entry whose value is an object with a
parseable bounds string, the run takes the error branch (an error is
recorded) and `uiElements`/`selectedElements` are left unchanged; a run
that completes the success path had no parseable entry and commits the
empty list; in every case the committed `uiElements` is either the old
list or empty. -/
theorem processJsonData_never_commits (st : AppState)
    (fields : List (String × JValue)) :
    (hasParseableEntry fields = true →
      (processJsonData st (.obj fields)).uiElements = st.uiElements ∧
      (processJsonData st (.obj fields)).selectedElements =
        st.selectedElements ∧
      (processJsonData st (.obj fields)).error.isSome = true) ∧
    ((processJsonData st (.obj fields)).error = none →
      (processJsonData st (.obj fields)).uiElements = [] ∧
      (processJsonData st (.obj fields)).selectedElements = [] ∧
      hasParseableEntry fields = false) ∧
    ((processJsonData st (.obj fields)).uiElements = st.uiElements ∨
      (processJsonData st (.obj fields)).uiElements = []) := by
  rw [processJsonData_obj]
  rcases hres : processEntries fields [] with msg | elements
  · refine ⟨fun _ => ⟨rfl, rfl, rfl⟩, fun hnone => ?_, Or.inl rfl⟩
    simp at hnone
  · have hempty : elements = [] := processEntries_ok fields [] elements hres
    subst hempty
    have hnp : hasParseableEntry fields = false := by
      by_contra hc
      rw [Bool.not_eq_false] at hc
      obtain ⟨msg, hmsg⟩ := processEntries_error_of_parseable fields hc []
      rw [hres] at hmsg
      exact Except.noConfusion hmsg
    refine ⟨fun hpar => ?_, fun _ => ⟨rfl, rfl, hnp⟩, Or.inr rfl⟩
    rw [hpar] at hnp
    exact Bool.noConfusion hnp

/-- Witness for C2 at a concrete dump: one parseable entry (the
end-to-end scenario entry) forces the error branch with unchanged
state. -/
theorem processJsonData_never_commits_witness :
    (processJsonData
        ⟨[], [], none⟩
        (.obj [("1", .obj [("bounds", .str "[0,0][50,20]"),
                           ("class", .str "android.widget.Button"),
                           ("clickable", .str "true")])])).uiElements = [] ∧
    (processJsonData
        ⟨[], [], none⟩
        (.obj [("1", .obj [("bounds", .str "[0,0][50,20]"),
                           ("class", .str "android.widget.Button"),
                           ("clickable", .str "true")])])).error.isSome
      = true := by
  have h := processJsonData_never_commits ⟨[], [], none⟩
    [("1", .obj [("bounds", .str "[0,0][50,20]"),
                 ("class", .str "android.widget.Button"),
                 ("clickable", .str "true")])]
  have hpar : hasParseableEntry
      [("1", JValue.obj [("bounds", .str "[0,0][50,20]"),
                         ("class", .str "android.widget.Button"),
                         ("clickable", .str "true")])] = true := by decide
  exact ⟨(h.1 hpar).1, (h.1 hpar).2.2⟩

/-! ## String utilities shared by the two color-mapping modules -/

/-- Prefix-scan backing
`String.prototype.includes`. -/
def listIncludes (pat : List Char) : List Char → Bool
  | [] => pat.isEmpty
  | c :: t => pat.isPrefixOf (c :: t) || listIncludes pat t

/-- Embedding of `s.includes(pat)` — substring containment. -/
def jsIncludes (s pat : String) : Bool :=
  listIncludes pat.data s.data

/-- Embedding of `s.toLowerCase()` (ASCII; all keywords are ASCII). -/
def jsToLower (s : String) : String :=
  ⟨s.data.map Char.toLower⟩

namespace ColorMapping

/-! ## `colorMapping.js` -/

/-- The 7-entry `COLOR_PALETTE` object. -/
structure ColorPalette where
  BUTTON : String
  INPUT : String
  TEXT : String
  IMAGE : String
  CONTAINER : String
  LAYOUT : String
  OTHER : String

def COLOR_PALETTE : ColorPalette :=
  { BUTTON := "#FF6B6B"
    INPUT := "#4ECDC4"
    TEXT := "#45B7D1"
    IMAGE := "#96CEB4"
    CONTAINER := "#FFEAA7"
    LAYOUT := "#DDA0DD"
    OTHER := "#95A5A6" }

/-- Embedding of `getElementType` (colorMapping.js lines 18–80): case-insensitive
substring matching against per-category keyword lists, first match
wins; empty (falsy) input is `Other`. -/
def getElementType (className : String) : String :=
  if className = "" then "Other"
  else
    let lowerClass := jsToLower className
    if jsIncludes lowerClass "button" || jsIncludes lowerClass "clickable" ||
       jsIncludes lowerClass "menu" || jsIncludes lowerClass "tab" ||
       jsIncludes lowerClass "chip" then "Button"
    else if jsIncludes lowerClass "edittext" || jsIncludes lowerClass "edit" ||
       jsIncludes lowerClass "input" || jsIncludes lowerClass "search" ||
       jsIncludes lowerClass "field" then "EditText"
    else if jsIncludes lowerClass "textview" || jsIncludes lowerClass "text" ||
       jsIncludes lowerClass "label" || jsIncludes lowerClass "title" then
      "TextView"
    else if jsIncludes lowerClass "imageview" || jsIncludes lowerClass "image" ||
       jsIncludes lowerClass "icon" || jsIncludes lowerClass "avatar" ||
       jsIncludes lowerClass "photo" then "ImageView"
    else if jsIncludes lowerClass "viewgroup" || jsIncludes lowerClass "group" ||
       jsIncludes lowerClass "linearlayout" || jsIncludes lowerClass "linear" ||
       jsIncludes lowerClass "recycler" || jsIncludes lowerClass "scroll" then
      "ViewGroup"
    else if jsIncludes lowerClass "framelayout" || jsIncludes lowerClass "frame" ||
       jsIncludes lowerClass "relativelayout" ||
       jsIncludes lowerClass "relative" || jsIncludes lowerClass "constraint" ||
       jsIncludes lowerClass "coordinator" || jsIncludes lowerClass "drawer" then
      "FrameLayout"
    else "Other"

/-- Embedding of `getElementColor` (colorMapping.js lines 83–102). -/
def getElementColor (className : String) : String :=
  let ty := getElementType className
  if ty = "Button" then COLOR_PALETTE.BUTTON
  else if ty = "EditText" then COLOR_PALETTE.INPUT
  else if ty = "TextView" then COLOR_PALETTE.TEXT
  else if ty = "ImageView" then COLOR_PALETTE.IMAGE
  else if ty = "ViewGroup" then COLOR_PALETTE.CONTAINER
  else if ty = "FrameLayout" then COLOR_PALETTE.LAYOUT
  else COLOR_PALETTE.OTHER

/-- Embedding of `getCategoryFromType` (colorMapping.js lines 121–137). -/
def getCategoryFromType (ty : String) : String :=
  if ty = "Button" then "Interactive"
  else if ty = "EditText" then "Input"
  else if ty = "TextView" then "Content"
  else if ty = "ImageView" then "Media"
  else if ty = "ViewGroup" ∨ ty = "FrameLayout" then "Layout"
  else "Other"

/-- Embedding of `getElementPriority` (colorMapping.js lines 140–172).  The clickable
boost compares `element.clickable` with `=== 'true'`; on an ingested
element that property is a JS boolean, so the strict comparison is
type-mismatched.  The text boost condition is
`element.text && element.text.trim()`. -/
def getElementPriority (ty : String) (element : Element) : Nat :=
  let priority :=
    if ty = "Button" then 5
    else if ty = "EditText" then 4
    else if ty = "TextView" then (if element.text ≠ "" then 3 else 2)
    else if ty = "ImageView" then 2
    else 1
  let priority :=
    if jsStrictEq element.clickable (.str "true") then priority + 2
    else priority
  let priority :=
    if element.text ≠ "" ∧ element.text.trim ≠ "" then priority + 1
    else priority
  min priority 7

/-- Embedding of `isInteractiveElement` (colorMapping.js lines 175–182).  The last
disjunct reads `element.focusable === 'true'`; ingested elements carry
no `focusable` property, so the comparison sees `undefined`. -/
def isInteractiveElement (ty : String) (element : Element) : Bool :=
  ty == "Button" || ty == "EditText" ||
  jsStrictEq element.clickable (.str "true") ||
  jsStrictEq JSVal.undef (.str "true")

/-- Result of `classifyElement` (the spread of the input element plus
`description` is omitted: no claim reads them). -/
structure Classified where
  ty : String
  color : String
  category : String
  priority : Nat
  isInteractive : Bool
deriving Repr, DecidableEq

/-- Embedding of `classifyElement` (colorMapping.js lines 105–118). -/
def classifyElement (element : Element) : Classified :=
  let ty := getElementType element.elemClass
  let color := getElementColor element.elemClass
  { ty := ty
    color := color
    category := getCategoryFromType ty
    priority := getElementPriority ty element
    isInteractive := isInteractiveElement ty element }

end ColorMapping

namespace CanvasUtils

/-! ## `canvasUtils.js` (second module, bundled in apiClient.js) -/

/-- The `getElementColor` copy in canvasUtils.js (lines 312–360): a
reduced keyword list per category, and the `menu` check runs on the
*original* string (`className.includes('menu')`), not the lowered
one. -/
def getElementColor (className : String) : String :=
  if className = "" then "#95A5A6"
  else
    let lowerClass := jsToLower className
    if jsIncludes lowerClass "button" || jsIncludes lowerClass "clickable" ||
       jsIncludes className "menu" then "#FF6B6B"
    else if jsIncludes lowerClass "edittext" || jsIncludes lowerClass "edit" ||
       jsIncludes lowerClass "input" then "#4ECDC4"
    else if jsIncludes lowerClass "textview" || jsIncludes lowerClass "text" ||
       jsIncludes lowerClass "label" then "#45B7D1"
    else if jsIncludes lowerClass "imageview" || jsIncludes lowerClass "image" ||
       jsIncludes lowerClass "icon" then "#96CEB4"
    else if jsIncludes lowerClass "viewgroup" || jsIncludes lowerClass "group" ||
       jsIncludes lowerClass "linear" then "#FFEAA7"
    else if jsIncludes lowerClass "framelayout" || jsIncludes lowerClass "frame" ||
       jsIncludes lowerClass "relative" then "#DDA0DD"
    else "#95A5A6"

end CanvasUtils

/-! ### Classification theorems -/

/-- The per-category keyword lists of the classifier taxonomy, in
priority order, as the specification words them. -/
def keywordTable : List (String × List String) :=
  [("Button", ["button", "clickable", "menu", "tab", "chip"]),
   ("EditText", ["edittext", "edit", "input", "search", "field"]),
   ("TextView", ["textview", "text", "label", "title"]),
   ("ImageView", ["imageview", "image", "icon", "avatar", "photo"]),
   ("ViewGroup", ["viewgroup", "group", "linearlayout", "linear",
                  "recycler", "scroll"]),
   ("FrameLayout", ["framelayout", "frame", "relativelayout", "relative",
                    "constraint", "coordinator", "drawer"])]

/-- Spec-side classifier: first category (in table order) one of whose
keywords occurs case-insensitively in the class name; `Other`
otherwise. -/
def specElementTypeAux : List (String × List String) → String → String
  | [], _ => "Other"
  | cat :: rest, lower =>
    if cat.2.any (fun kw => jsIncludes lower kw) then cat.1
    else specElementTypeAux rest lower

def specElementType (className : String) : String :=
  specElementTypeAux keywordTable (jsToLower className)

/-- C9: `getElementType` realizes exactly the keyword-table taxonomy
(case-insensitive substring matching, categories tried in priority
order, first match wins, empty/unmatched input `Other`), and the named
concrete classifications and colors hold. -/
theorem getElementType_taxonomy :
    (∀ className,
      ColorMapping.getElementType className = specElementType className) ∧
    ColorMapping.getElementType "android.widget.Button" = "Button" ∧
    ColorMapping.getElementColor "android.widget.Button" = "#FF6B6B" ∧
    ColorMapping.getElementType "" = "Other" ∧
    ColorMapping.getElementColor "" = "#95A5A6" ∧
    ColorMapping.getElementType "some.unknown.Thing" = "Other" ∧
    ColorMapping.getElementColor "some.unknown.Thing" = "#95A5A6" := by
  refine ⟨fun className => ?_, by decide, by decide, by decide, by decide,
    by decide, by decide⟩
  obtain ⟨l⟩ := className
  cases l with
  | nil => decide
  | cons c cs =>
    have hne : (⟨c :: cs⟩ : String) ≠ "" := by
      simp [String.ext_iff]
    simp only [ColorMapping.getElementType, specElementType, keywordTable,
      specElementTypeAux, List.any_cons, List.any_nil, Bool.or_false,
      Bool.or_assoc, if_neg hne]

/-- C4 counterexample: the two `getElementColor` implementations are not
extensionally equal — `"tab"` is a Button keyword only in
colorMapping.js. -/
theorem getElementColor_copies_differ :
    ColorMapping.getElementColor "tab" = "#FF6B6B" ∧
    CanvasUtils.getElementColor "tab" = "#95A5A6" ∧
    ColorMapping.getElementColor "tab" ≠ CanvasUtils.getElementColor "tab" := by
  refine ⟨by decide, by decide, by decide⟩

/-- C4 (amended): the canvasUtils copy uses reduced keyword lists (no
tab/chip/search/field/title/avatar/photo/linearlayout/recycler/scroll/
relativelayout/constraint/coordinator/drawer) and matches `menu`
case-sensitively, so the two copies disagree on such inputs (`"tab"`,
`"Menu"`); they do agree on the canonical Android class names of the
taxonomy and on empty/unmatched input. -/
theorem getElementColor_copies_agree_on_canonical :
    ColorMapping.getElementColor "android.widget.Button" =
      CanvasUtils.getElementColor "android.widget.Button" ∧
    ColorMapping.getElementColor "android.widget.EditText" =
      CanvasUtils.getElementColor "android.widget.EditText" ∧
    ColorMapping.getElementColor "android.widget.TextView" =
      CanvasUtils.getElementColor "android.widget.TextView" ∧
    ColorMapping.getElementColor "android.widget.ImageView" =
      CanvasUtils.getElementColor "android.widget.ImageView" ∧
    ColorMapping.getElementColor "android.view.ViewGroup" =
      CanvasUtils.getElementColor "android.view.ViewGroup" ∧
    ColorMapping.getElementColor "android.widget.FrameLayout" =
      CanvasUtils.getElementColor "android.widget.FrameLayout" ∧
    ColorMapping.getElementColor "" = CanvasUtils.getElementColor "" ∧
    ColorMapping.getElementColor "some.unknown.Thing" =
      CanvasUtils.getElementColor "some.unknown.Thing" ∧
    ColorMapping.getElementColor "Menu" ≠ CanvasUtils.getElementColor "Menu" := by
  refine ⟨by decide, by decide, by decide, by decide, by decide, by decide,
    by decide, by decide, by decide⟩

/-! ### Priority (C3) -/

/-- The element-dump entry of the end-to-end scenario. -/
def scenarioDump : List (String × JValue) :=
  [("bounds", .str "[0,0][50,20]"),
   ("class", .str "android.widget.Button"),
   ("clickable", .str "true")]

/-- The element `processJsonData` builds from the scenario entry. -/
def scenarioElement : Element :=
  mkElement "1" scenarioDump ⟨0, 0, 50, 20⟩

/-- The priority formula as the claim states it:
`min(7, base + (2 if clickable) + (1 if text non-empty))` with base
Button=5, EditText=4, TextView=3/2, ImageView=2, else 1. -/
def claimPriority (ty : String) (clickable : Bool) (text : String) : Nat :=
  min ((if ty = "Button" then 5
        else if ty = "EditText" then 4
        else if ty = "TextView" then (if text ≠ "" then 3 else 2)
        else if ty = "ImageView" then 2
        else 1)
       + (if clickable then 2 else 0)
       + (if text ≠ "" then 1 else 0)) 7

/-- C3: evaluation of the code at the failing input.  The wire entry has
`clickable: "true"`; ingestion converts it to the JS boolean `true`;
`getElementPriority` then compares that boolean with `=== 'true'`, which
is always false across types, so the clickable boost is skipped and the
scenario Button gets priority 5, not the 7 the claim computes. -/
theorem ingested_clickable_priority_bug :
    jsLookup scenarioDump "clickable" = some (.str "true") ∧
    scenarioElement.clickable = .bool true ∧
    (ColorMapping.classifyElement scenarioElement).ty = "Button" ∧
    (ColorMapping.classifyElement scenarioElement).priority = 5 ∧
    claimPriority "Button" true "" = 7 ∧
    (ColorMapping.classifyElement scenarioElement).priority ≠
      claimPriority "Button" true "" := by
  refine ⟨rfl, by decide, by decide, by decide, by decide, by decide⟩

/-! ## Coordinate scaling and hit testing
(`canvasUtils.js` lines 461–495, `BoundingBoxCanvas.jsx` lines 39–60 and
134–156)

Scale factors and pointer positions are rationals (JS numbers; no claim
exercises float rounding), rectangle coordinates are integers.
`Math.round` rounds half toward `+∞`. -/

/-- Embedding of `Math.round(q)`. -/
def jsRound (q : ℚ) : Int :=
  ⌊q + 1 / 2⌋

/-- Embedding of `scaleCoordinates` (canvasUtils.js lines 461–470).  The `|| 0`
guards only replace `undefined`/`NaN` fields, which a well-formed
`Bounds` cannot carry, so they are identities here. -/
def scaleCoordinates (bounds : Bounds) (scale : ℚ) : Bounds :=
  { x1 := jsRound (bounds.x1 * scale)
    y1 := jsRound (bounds.y1 * scale)
    x2 := jsRound (bounds.x2 * scale)
    y2 := jsRound (bounds.y2 * scale) }

/-- Embedding of `isPointInBounds` (canvasUtils.js lines 487–495): containment in the
scaled rectangle, inclusive on all four edges. -/
def isPointInBounds (point : ℚ × ℚ) (bounds : Bounds) (scale : ℚ) : Bool :=
  let scaledBounds := scaleCoordinates bounds scale
  decide ((scaledBounds.x1 : ℚ) ≤ point.1) &&
  decide (point.1 ≤ (scaledBounds.x2 : ℚ)) &&
  decide ((scaledBounds.y1 : ℚ) ≤ point.2) &&
  decide (point.2 ≤ (scaledBounds.y2 : ℚ))

/-- The scale factor computed by `calculateCanvasSize`
(BoundingBoxCanvas.jsx lines 39–60): shrink-to-fit into the 800×600
viewport, `1` if the image already fits. -/
def calculateCanvasScale (width height : ℚ) : ℚ :=
  let maxWidth : ℚ := 800
  let maxHeight : ℚ := 600
  if width > maxWidth ∨ height > maxHeight then
    min (maxWidth / width) (maxHeight / height)
  else 1

/-- The element search of `handleCanvasClick` (BoundingBoxCanvas.jsx
lines 141–151): first element (in array order) that is in the
visibility set and whose scaled rectangle contains the click point;
the inlined containment test coincides with `isPointInBounds`. -/
def findClickedElement (uiElements : List Element)
    (selectedElements : List String) (scale : ℚ) (click : ℚ × ℚ) :
    Option Element :=
  uiElements.find? (fun element =>
    if !(selectedElements.contains element.id) then false
    else
      let scaledBounds := scaleCoordinates element.bounds scale
      decide ((scaledBounds.x1 : ℚ) ≤ click.1) &&
      decide (click.1 ≤ (scaledBounds.x2 : ℚ)) &&
      decide ((scaledBounds.y1 : ℚ) ≤ click.2) &&
      decide (click.2 ≤ (scaledBounds.y2 : ℚ)))

/-! ### Hit-test lemmas -/

/-- A successful `find?` returns the first satisfying element: the witness index has
no earlier satisfying index. -/
lemma find?_some_first {α : Type} (p : α → Bool) (l : List α) (a : α)
    (h : l.find? p = some a) :
    p a = true ∧ ∃ i, ∃ hi : i < l.length, l.get ⟨i, hi⟩ = a ∧
      ∀ j (hj : j < l.length), j < i → p (l.get ⟨j, hj⟩) = false := by
  induction l with
  | nil => simp [List.find?] at h
  | cons b t ih =>
    by_cases hb : p b = true
    · rw [List.find?_cons_of_pos _ hb] at h
      have hba : b = a := by injection h
      subst hba
      exact ⟨hb, 0, by simp, rfl, fun j hj hlt => absurd hlt (Nat.not_lt_zero j)⟩
    · rw [List.find?_cons_of_neg _ hb] at h
      obtain ⟨hpa, i, hi, hget, hfirst⟩ := ih h
      refine ⟨hpa, i + 1, by simpa using Nat.succ_lt_succ hi, by simpa using hget, ?_⟩
      intro j hj hlt
      cases j with
      | zero =>
        rw [Bool.not_eq_true] at hb
        simpa using hb
      | succ k =>
        have hk : k < i := Nat.lt_of_succ_lt_succ hlt
        have hkt : k < t.length := by simpa using Nat.lt_of_succ_lt_succ hj
        simpa using hfirst k hkt hk

/-- The hit predicate of `handleCanvasClick`, rephrased as membership in
the visibility set conjoined with `isPointInBounds`. -/
lemma hitPred_eq (selectedElements : List String) (scale : ℚ) (click : ℚ × ℚ)
    (element : Element) :
    (if !(selectedElements.contains element.id) then false
     else
       let scaledBounds := scaleCoordinates element.bounds scale
       decide ((scaledBounds.x1 : ℚ) ≤ click.1) &&
       decide (click.1 ≤ (scaledBounds.x2 : ℚ)) &&
       decide ((scaledBounds.y1 : ℚ) ≤ click.2) &&
       decide (click.2 ≤ (scaledBounds.y2 : ℚ)))
    = (selectedElements.contains element.id &&
       isPointInBounds click element.bounds scale) := by
  cases h : selectedElements.contains element.id <;>
    simp [h, isPointInBounds]

/-- C5: the hit test returns the first element in array order that is in
the visibility set and whose scaled rectangle contains the point;
containment is inclusive of all four edges (a corner point matches, a
point one pixel outside any edge does not). -/
theorem hit_test_first_inclusive (uiElements : List Element)
    (selectedElements : List String) (scale : ℚ) (click : ℚ × ℚ) :
    (∀ e, findClickedElement uiElements selectedElements scale click = some e →
      (selectedElements.contains e.id = true ∧
        isPointInBounds click e.bounds scale = true) ∧
      ∃ i, ∃ hi : i < uiElements.length, uiElements.get ⟨i, hi⟩ = e ∧
        ∀ j (hj : j < uiElements.length), j < i →
          ¬(selectedElements.contains (uiElements.get ⟨j, hj⟩).id = true ∧
            isPointInBounds click (uiElements.get ⟨j, hj⟩).bounds scale = true)) ∧
    (findClickedElement uiElements selectedElements scale click = none →
      ∀ e ∈ uiElements,
        ¬(selectedElements.contains e.id = true ∧
          isPointInBounds click e.bounds scale = true)) ∧
    (∀ bounds : Bounds, isPointInBounds click bounds scale = true ↔
      (((scaleCoordinates bounds scale).x1 : ℚ) ≤ click.1 ∧
       click.1 ≤ ((scaleCoordinates bounds scale).x2 : ℚ) ∧
       ((scaleCoordinates bounds scale).y1 : ℚ) ≤ click.2 ∧
       click.2 ≤ ((scaleCoordinates bounds scale).y2 : ℚ))) ∧
    (∀ bounds : Bounds,
      (scaleCoordinates bounds scale).x1 ≤ (scaleCoordinates bounds scale).x2 →
      (scaleCoordinates bounds scale).y1 ≤ (scaleCoordinates bounds scale).y2 →
      isPointInBounds (((scaleCoordinates bounds scale).x1 : ℚ),
        ((scaleCoordinates bounds scale).y1 : ℚ)) bounds scale = true ∧
      isPointInBounds (((scaleCoordinates bounds scale).x2 : ℚ),
        ((scaleCoordinates bounds scale).y2 : ℚ)) bounds scale = true ∧
      isPointInBounds (((scaleCoordinates bounds scale).x1 : ℚ) - 1,
        ((scaleCoordinates bounds scale).y1 : ℚ)) bounds scale = false ∧
      isPointInBounds (((scaleCoordinates bounds scale).x2 : ℚ) + 1,
        ((scaleCoordinates bounds scale).y1 : ℚ)) bounds scale = false ∧
      isPointInBounds (((scaleCoordinates bounds scale).x1 : ℚ),
        ((scaleCoordinates bounds scale).y1 : ℚ) - 1) bounds scale = false ∧
      isPointInBounds (((scaleCoordinates bounds scale).x1 : ℚ),
        ((scaleCoordinates bounds scale).y2 : ℚ) + 1) bounds scale = false) := by
  have hfun : (fun element =>
      if !(selectedElements.contains element.id) then false
      else
        let scaledBounds := scaleCoordinates element.bounds scale
        decide ((scaledBounds.x1 : ℚ) ≤ click.1) &&
        decide (click.1 ≤ (scaledBounds.x2 : ℚ)) &&
        decide ((scaledBounds.y1 : ℚ) ≤ click.2) &&
        decide (click.2 ≤ (scaledBounds.y2 : ℚ)))
      = (fun element : Element => selectedElements.contains element.id &&
          isPointInBounds click element.bounds scale) :=
    funext (hitPred_eq selectedElements scale click)
  refine ⟨?_, ?_, ?_, ?_⟩
  · intro e he
    rw [findClickedElement, hfun] at he
    obtain ⟨hpa, i, hi, hget, hfirst⟩ := find?_some_first _ _ _ he
    rw [Bool.and_eq_true] at hpa
    refine ⟨hpa, i, hi, hget, fun j hj hlt hcontra => ?_⟩
    have hx := hfirst j hj hlt
    rw [hcontra.1, hcontra.2] at hx
    exact absurd hx (by decide)
  · intro hnone e hmem hcontra
    rw [findClickedElement, hfun, List.find?_eq_none] at hnone
    have := hnone e hmem
    rw [Bool.and_eq_true] at this
    exact this ⟨hcontra.1, hcontra.2⟩
  · intro bounds
    simp [isPointInBounds, and_assoc]
  · intro bounds hx hy
    have hx' : ((scaleCoordinates bounds scale).x1 : ℚ) ≤
        ((scaleCoordinates bounds scale).x2 : ℚ) := by exact_mod_cast hx
    have hy' : ((scaleCoordinates bounds scale).y1 : ℚ) ≤
        ((scaleCoordinates bounds scale).y2 : ℚ) := by exact_mod_cast hy
    refine ⟨?_, ?_, ?_, ?_, ?_, ?_⟩ <;>
      simp [isPointInBounds, hx', hy']

/-- Witness for the C5 theorem at a concrete rectangle: the top-left
corner of the scaled bounds is a hit, one pixel left of it is a miss. -/
theorem hit_test_first_inclusive_witness :
    isPointInBounds (((scaleCoordinates ⟨10, 20, 30, 40⟩ 1).x1 : ℚ),
      ((scaleCoordinates ⟨10, 20, 30, 40⟩ 1).y1 : ℚ)) ⟨10, 20, 30, 40⟩ 1
      = true ∧
    isPointInBounds (((scaleCoordinates ⟨10, 20, 30, 40⟩ 1).x1 : ℚ) - 1,
      ((scaleCoordinates ⟨10, 20, 30, 40⟩ 1).y1 : ℚ)) ⟨10, 20, 30, 40⟩ 1
      = false := by
  have hsc : scaleCoordinates ⟨10, 20, 30, 40⟩ 1 = ⟨10, 20, 30, 40⟩ := by
    unfold scaleCoordinates jsRound
    norm_num
  have h := (hit_test_first_inclusive [] [] 1 ((0 : ℚ), (0 : ℚ))).2.2.2
    ⟨10, 20, 30, 40⟩ (by rw [hsc]; decide) (by rw [hsc]; decide)
  exact ⟨h.1, h.2.2.1⟩

/-- C8: with a source image already inside the 800×600 viewport the
chosen scale factor is 1, and scaling any rectangle with non-negative
integer coordinates by 1 is the identity despite the
multiply-and-round transformation. -/
theorem scale_one_identity (bounds : Bounds) (w h : ℚ)
    (hx1 : 0 ≤ bounds.x1) (hy1 : 0 ≤ bounds.y1)
    (hx2 : 0 ≤ bounds.x2) (hy2 : 0 ≤ bounds.y2)
    (hw : w ≤ 800) (hh : h ≤ 600) :
    calculateCanvasScale w h = 1 ∧ scaleCoordinates bounds 1 = bounds := by
  have hround : ∀ z : Int, jsRound (z : ℚ) = z := by
    intro z
    unfold jsRound
    rw [Int.floor_int_add]
    norm_num
  constructor
  · have hcond : ¬(w > (800 : ℚ) ∨ h > (600 : ℚ)) := by
      push_neg
      exact ⟨hw, hh⟩
    simp only [calculateCanvasScale]
    rw [if_neg hcond]
  · obtain ⟨x1, y1, x2, y2⟩ := bounds
    simp [scaleCoordinates, hround]

/-- Witness for the C8 theorem at a concrete rectangle and image size. -/
theorem scale_one_identity_witness :
    calculateCanvasScale 500 400 = 1 ∧
    scaleCoordinates ⟨1, 2, 3, 4⟩ 1 = ⟨1, 2, 3, 4⟩ := by
  exact scale_one_identity ⟨1, 2, 3, 4⟩ 500 400 (by norm_num) (by norm_num)
    (by norm_num) (by norm_num) (by norm_num) (by norm_num)

namespace BoundingBoxOverlay

/-! ## `BoundingBoxOverlay.jsx`

Elements reaching this component carry plain string/boolean fields
(`element.text || ""` and `element.resource_id || ""` are identities on
string-typed fields and are therefore written directly). -/

structure OElement where
  id : String
  elemClass : String
  text : String
  resource_id : String
  bounds : Bounds
  clickable : Bool
  enabled : Bool
  visible : Bool
deriving DecidableEq, Repr

structure BoundingBox where
  x1 : Int
  y1 : Int
  x2 : Int
  y2 : Int
  width : Int
  height : Int
deriving DecidableEq, Repr

structure AnnProperties where
  clickable : Bool
  enabled : Bool
  visible : Bool
deriving DecidableEq, Repr

structure Annotation where
  id : String
  element_class : String
  text_content : String
  resource_id : String
  bounding_box : BoundingBox
  properties : AnnProperties
deriving DecidableEq, Repr

structure ImageInfo where
  filename : String
  width : Int
  height : Int
deriving DecidableEq, Repr

structure Metadata where
  total_elements : Nat
  created_at : String
  annotation_tool : String
deriving DecidableEq, Repr

structure AnnotationData where
  image_info : ImageInfo
  annotations : List Annotation
  metadata : Metadata
deriving DecidableEq, Repr

/-- One entry of the `annotations` array (the `.map` body of
`saveSelectedJSON` / `saveAnnotationsToDatabase`, lines 88–106 and
189–207: the two copies are textually identical). -/
def mkAnnotationEntry (element : OElement) : Annotation :=
  { id := element.id
    element_class := element.elemClass
    text_content := element.text
    resource_id := element.resource_id
    bounding_box :=
      { x1 := element.bounds.x1
        y1 := element.bounds.y1
        x2 := element.bounds.x2
        y2 := element.bounds.y2
        width := element.bounds.x2 - element.bounds.x1
        height := element.bounds.y2 - element.bounds.y1 }
    properties :=
      { clickable := element.clickable
        enabled := element.enabled
        visible := element.visible } }

/-- Embedding of `Math.max(...)` over a spread array; the empty case (`-Infinity`) is
unreachable behind the `selectedElements[0]?.bounds` truthiness guard. -/
def jsMathMax : List Int → Int
  | [] => 0
  | x :: xs => xs.foldl max x

/-- The `image_info` object: maxima of the selected bounds, or the
1080×1920 fallback when no element is selected. -/
def imageInfoOf (selectedElements : List OElement) : ImageInfo :=
  { filename := "screenshot.png"
    width :=
      match selectedElements with
      | [] => 1080
      | _ => jsMathMax (selectedElements.map (fun el => el.bounds.x2))
    height :=
      match selectedElements with
      | [] => 1920
      | _ => jsMathMax (selectedElements.map (fun el => el.bounds.y2)) }

/-- The `annotationData` payload built by `saveSelectedJSON` (lines
180–213) and identically by `saveAnnotationsToDatabase` (lines 80–112):
the elements currently in the visibility set, in element-array order.
`now` stands for `new Date().toISOString()`. -/
def buildAnnotationData (elements : List OElement)
    (visibleBoxes : List String) (now : String) : AnnotationData :=
  let selectedElements :=
    elements.filter (fun element => visibleBoxes.contains element.id)
  { image_info := imageInfoOf selectedElements
    annotations := selectedElements.map mkAnnotationEntry
    metadata :=
      { total_elements := selectedElements.length
        created_at := now
        annotation_tool := "Drizz UI Testing Tool" } }

/-- Outcome of the single `fetch` to `/api/save-annotations`. -/
inductive NetOutcome where
  | netError (msg : String)
  | httpError (status : Nat) (statusText : String)
  | okResult (success : Bool) (message : String)

/-- Observable effects of one `saveAnnotationsToDatabase` call. -/
structure SaveTrace where
  requests : Nat
  alerts : List String
  skippedNoProject : Bool
  returned : Bool
  visibleBoxes : List String
deriving DecidableEq, Repr

/-- Embedding of `saveAnnotationsToDatabase` (lines 74–152): skip (console log, no
request, return `false`) without a project id; otherwise build the
payload, fetch once, and surface the outcome via `alert`.  The
`visibleBoxes` component state is never written. -/
def saveAnnotationsToDatabase (projectId : Option String)
    (elements : List OElement) (visibleBoxes : List String)
    (successMessage now : String) (net : NetOutcome) : SaveTrace :=
  match projectId with
  | none =>
    { requests := 0
      alerts := []
      skippedNoProject := true
      returned := false
      visibleBoxes := visibleBoxes }
  | some _ =>
    let _annotationData := buildAnnotationData elements visibleBoxes now
    match net with
    | .netError msg =>
      { requests := 1
        alerts := ["❌ Database save failed: " ++ msg]
        skippedNoProject := false
        returned := false
        visibleBoxes := visibleBoxes }
    | .httpError status statusText =>
      { requests := 1
        alerts := ["❌ Database save failed: " ++
          ("HTTP " ++ toString status ++ ": " ++ statusText)]
        skippedNoProject := false
        returned := false
        visibleBoxes := visibleBoxes }
    | .okResult true _ =>
      { requests := 1
        alerts := ["✅ " ++ successMessage]
        skippedNoProject := false
        returned := true
        visibleBoxes := visibleBoxes }
    | .okResult false message =>
      { requests := 1
        alerts := ["❌ Failed to save to database: " ++ message]
        skippedNoProject := false
        returned := false
        visibleBoxes := visibleBoxes }

/-- Observable effects of one `saveSelectedJSON` call. -/
structure ExportTrace where
  downloads : Nat
  jsonPayload : AnnotationData
  dbTrace : SaveTrace
deriving DecidableEq, Repr

/-- Embedding of `saveSelectedJSON` (lines 179–234): always download the payload as
a file first; then auto-save to the database only when a project id
exists (otherwise just an informational alert). -/
def saveSelectedJSON (projectId : Option String) (elements : List OElement)
    (visibleBoxes : List String) (now : String) (net : NetOutcome) :
    ExportTrace :=
  let selectedElements :=
    elements.filter (fun element => visibleBoxes.contains element.id)
  let annotationData := buildAnnotationData elements visibleBoxes now
  match projectId with
  | some pid =>
    { downloads := 1
      jsonPayload := annotationData
      dbTrace :=
        saveAnnotationsToDatabase (some pid) elements visibleBoxes
          ("JSON saved locally and to database! (" ++
            toString selectedElements.length ++ " elements)") now net }
  | none =>
    { downloads := 1
      jsonPayload := annotationData
      dbTrace :=
        { requests := 0
          alerts := ["✅ JSON saved locally! (" ++
            toString selectedElements.length ++ " elements)"]
          skippedNoProject := false
          returned := false
          visibleBoxes := visibleBoxes } }

end BoundingBoxOverlay

/-! ### Persistence-client theorems -/

open BoundingBoxOverlay in
/-- C6: without a Project id the save is an explicit skip — no network
request, no error alert, `false` returned, visibility set untouched;
with an id, every failure mode (network error, non-success HTTP status,
`success: false` response) surfaces exactly one alert after exactly one
request (no retry) and leaves the visibility set exactly as it was; the
local JSON download happens exactly once regardless of the network
outcome. -/
theorem saveAnnotations_skip_and_failure_contract
    (elements : List OElement) (visibleBoxes : List String)
    (successMessage now : String) (net : NetOutcome) :
    (saveAnnotationsToDatabase none elements visibleBoxes successMessage
        now net =
      { requests := 0
        alerts := []
        skippedNoProject := true
        returned := false
        visibleBoxes := visibleBoxes }) ∧
    (∀ projectId,
      (saveAnnotationsToDatabase projectId elements visibleBoxes
          successMessage now net).visibleBoxes = visibleBoxes) ∧
    (∀ pid msg, net = .netError msg →
      (saveAnnotationsToDatabase (some pid) elements visibleBoxes
          successMessage now net).requests = 1 ∧
      (saveAnnotationsToDatabase (some pid) elements visibleBoxes
          successMessage now net).alerts =
        ["❌ Database save failed: " ++ msg] ∧
      (saveAnnotationsToDatabase (some pid) elements visibleBoxes
          successMessage now net).returned = false) ∧
    (∀ pid status statusText, net = .httpError status statusText →
      (saveAnnotationsToDatabase (some pid) elements visibleBoxes
          successMessage now net).requests = 1 ∧
      (saveAnnotationsToDatabase (some pid) elements visibleBoxes
          successMessage now net).alerts =
        ["❌ Database save failed: " ++
          ("HTTP " ++ toString status ++ ": " ++ statusText)] ∧
      (saveAnnotationsToDatabase (some pid) elements visibleBoxes
          successMessage now net).returned = false) ∧
    (∀ pid message, net = .okResult false message →
      (saveAnnotationsToDatabase (some pid) elements visibleBoxes
          successMessage now net).requests = 1 ∧
      (saveAnnotationsToDatabase (some pid) elements visibleBoxes
          successMessage now net).alerts =
        ["❌ Failed to save to database: " ++ message] ∧
      (saveAnnotationsToDatabase (some pid) elements visibleBoxes
          successMessage now net).returned = false) ∧
    (∀ projectId,
      (saveSelectedJSON projectId elements visibleBoxes now net).downloads
        = 1 ∧
      (saveSelectedJSON projectId elements visibleBoxes now
          net).dbTrace.visibleBoxes = visibleBoxes) := by
  refine ⟨rfl, ?_, ?_, ?_, ?_, ?_⟩
  · intro projectId
    cases projectId with
    | none => rfl
    | some pid => cases net <;> first
      | rfl
      | (rename_i b m; cases b <;> rfl)
  · rintro pid msg rfl
    exact ⟨rfl, rfl, rfl⟩
  · rintro pid status statusText rfl
    exact ⟨rfl, rfl, rfl⟩
  · rintro pid message rfl
    exact ⟨rfl, rfl, rfl⟩
  · intro projectId
    cases projectId with
    | none => exact ⟨rfl, rfl⟩
    | some pid =>
      refine ⟨rfl, ?_⟩
      cases net <;> first
        | rfl
        | (rename_i b m; cases b <;> rfl)

open BoundingBoxOverlay in
/-- Witness for the C6 theorem at concrete inputs: a network error with
a project id yields one request, one surfaced alert, and an unchanged
visibility set; no project id yields the skip trace. -/
theorem saveAnnotations_skip_and_failure_contract_witness :
    (saveAnnotationsToDatabase (some "p") [] ["a"] "ok" "t"
        (.netError "boom")).requests = 1 ∧
    (saveAnnotationsToDatabase (some "p") [] ["a"] "ok" "t"
        (.netError "boom")).alerts = ["❌ Database save failed: boom"] ∧
    (saveAnnotationsToDatabase (some "p") [] ["a"] "ok" "t"
        (.netError "boom")).visibleBoxes = ["a"] ∧
    (saveAnnotationsToDatabase none [] ["a"] "ok" "t"
        (.netError "boom")).requests = 0 ∧
    (saveSelectedJSON (some "p") [] ["a"] "t" (.netError "boom")).downloads
      = 1 := by
  have h := saveAnnotations_skip_and_failure_contract [] ["a"] "ok" "t"
    (.netError "boom")
  obtain ⟨hreq, halert, -⟩ := h.2.2.1 "p" "boom" rfl
  refine ⟨hreq, ?_, h.2.1 (some "p"), ?_, (h.2.2.2.2.2 (some "p")).1⟩
  · rw [halert]; rfl
  · rw [h.1]

open BoundingBoxOverlay in
/-- C7: the exported payload's `annotations` array is exactly the
elements currently in the visibility set, in element-array order, each
carrying its full bounds with derived width/height and its
clickable/enabled/visible properties; `metadata.total_elements` equals
their number; with every element toggled off the array is empty and the
total is 0. -/
theorem export_payload_matches_visibility (elements : List OElement)
    (visibleBoxes : List String) (now : String) :
    ((buildAnnotationData elements visibleBoxes now).annotations.map
        (fun a => a.id) =
      (elements.filter (fun el => visibleBoxes.contains el.id)).map
        (fun el => el.id)) ∧
    ((buildAnnotationData elements visibleBoxes now).metadata.total_elements
      = (buildAnnotationData elements visibleBoxes now).annotations.length) ∧
    (∀ el ∈ elements, visibleBoxes.contains el.id = true →
      mkAnnotationEntry el ∈ (buildAnnotationData elements visibleBoxes
        now).annotations) ∧
    (∀ el : OElement,
      (mkAnnotationEntry el).bounding_box.x1 = el.bounds.x1 ∧
      (mkAnnotationEntry el).bounding_box.y1 = el.bounds.y1 ∧
      (mkAnnotationEntry el).bounding_box.x2 = el.bounds.x2 ∧
      (mkAnnotationEntry el).bounding_box.y2 = el.bounds.y2 ∧
      (mkAnnotationEntry el).properties.clickable = el.clickable ∧
      (mkAnnotationEntry el).properties.enabled = el.enabled ∧
      (mkAnnotationEntry el).properties.visible = el.visible) ∧
    (∀ a ∈ (buildAnnotationData elements visibleBoxes now).annotations,
      a.bounding_box.width = a.bounding_box.x2 - a.bounding_box.x1 ∧
      a.bounding_box.height = a.bounding_box.y2 - a.bounding_box.y1) ∧
    ((∀ el ∈ elements, visibleBoxes.contains el.id = false) →
      (buildAnnotationData elements visibleBoxes now).annotations = [] ∧
      (buildAnnotationData elements visibleBoxes
        now).metadata.total_elements = 0) := by
  refine ⟨?_, ?_, ?_, fun el => ⟨rfl, rfl, rfl, rfl, rfl, rfl, rfl⟩, ?_, ?_⟩
  · simp only [buildAnnotationData, List.map_map]
    exact List.map_congr_left (fun a _ => rfl)
  · simp [buildAnnotationData]
  · intro el hmem hvis
    simp only [buildAnnotationData]
    exact List.mem_map_of_mem _ (List.mem_filter.mpr ⟨hmem, hvis⟩)
  · intro a ha
    simp only [buildAnnotationData, List.mem_map] at ha
    obtain ⟨el, -, rfl⟩ := ha
    exact ⟨rfl, rfl⟩
  · intro hall
    have hfil : elements.filter (fun el => visibleBoxes.contains el.id)
        = [] := by
      rw [List.filter_eq_nil_iff]
      intro el hmem
      have h2 := hall el hmem
      simpa using h2
    simp [buildAnnotationData, hfil]
    intro a ha
    simpa using hall a ha

open BoundingBoxOverlay in
/-- Witness for the C7 theorem: with the single element's box toggled
off, the export has zero annotations and `total_elements = 0`. -/
theorem export_payload_matches_visibility_witness :
    (buildAnnotationData
        [⟨"1", "android.widget.Button", "", "", ⟨0, 0, 50, 20⟩,
          true, true, true⟩] [] "t").annotations = [] ∧
    (buildAnnotationData
        [⟨"1", "android.widget.Button", "", "", ⟨0, 0, 50, 20⟩,
          true, true, true⟩] [] "t").metadata.total_elements = 0 := by
  have h := export_payload_matches_visibility
    [⟨"1", "android.widget.Button", "", "", ⟨0, 0, 50, 20⟩,
      true, true, true⟩] [] "t"
  exact h.2.2.2.2.2 (fun el _ => by simp)

namespace IdentityGenerator

/-! ## Project-identity scheme (spec §4.6)

The generator (`generate_unique_project_id` / `generate_short_id` in the
backend `main.py`/`database.py`) is not part of the sources under
`src/`; the definitions below are modelled from the specification.  The
256-bit digest is an abstract parameter; the spec's no-collision
contract corresponds to reading it as an ideal (injective) hash. -/

/-- Modelled from the spec: stage 1 — append a fresh timestamp-derived
nonce string to the image payload representation and digest the
result. -/
def imageHashOf (digest : String → String) (imagePayload nonce : String) :
    String :=
  digest (imagePayload ++ nonce)

/-- Modelled from the spec: stage 2 — concatenate
`imageHash + ":" + labelHash` and digest once more, giving the Project
id. -/
def combineHashes (digest : String → String) (imageHash labelHash : String) :
    String :=
  digest (imageHash ++ ":" ++ labelHash)

/-- Modelled from the spec: the full id pipeline for one upload
(`labelHash` is the digest of the canonical element-dump
serialization, computed independently of the nonce). -/
def projectIdOf (digest : String → String)
    (imagePayload nonce labelHash : String) : String :=
  combineHashes digest (imageHashOf digest imagePayload nonce) labelHash

end IdentityGenerator

open IdentityGenerator in
/-- C10: with the digest read as an ideal (injective) hash, two uploads
of byte-identical content under distinct timestamp nonces produce
distinct Project ids, while the combination step is a pure function of
the `(imageHash, labelHash)` pair — the same pair always yields the
same id. -/
theorem projectId_nonce_fresh_and_combine_deterministic
    (digest : String → String) (hinj : Function.Injective digest)
    (imagePayload labelHash n1 n2 : String) (hn : n1 ≠ n2) :
    projectIdOf digest imagePayload n1 labelHash ≠
      projectIdOf digest imagePayload n2 labelHash ∧
    (∀ imageHash1 labelHash1 imageHash2 labelHash2 : String,
      imageHash1 = imageHash2 → labelHash1 = labelHash2 →
      combineHashes digest imageHash1 labelHash1 =
        combineHashes digest imageHash2 labelHash2) := by
  refine ⟨fun heq => ?_, fun i1 l1 i2 l2 hi hl => by rw [hi, hl]⟩
  have h2 := hinj heq
  have h3 : imageHashOf digest imagePayload n1 =
      imageHashOf digest imagePayload n2 := by
    have hd := congrArg String.data h2
    simp only [String.data_append] at hd
    have hc1 := List.append_cancel_right hd
    exact String.ext (List.append_cancel_right hc1)
  have h4 := hinj h3
  have hd4 := congrArg String.data h4
  simp only [String.data_append] at hd4
  exact hn (String.ext (List.append_cancel_left hd4))

/-- Witness for the C10 theorem with a concrete injective digest (the
identity function) and distinct concrete nonces. -/
theorem projectId_nonce_fresh_witness :
    IdentityGenerator.projectIdOf (fun s => s) "img" "n1" "lbl" ≠
      IdentityGenerator.projectIdOf (fun s => s) "img" "n2" "lbl" ∧
    IdentityGenerator.combineHashes (fun s => s) "ih" "lh" =
      IdentityGenerator.combineHashes (fun s => s) "ih" "lh" := by
  have h := projectId_nonce_fresh_and_combine_deterministic
    (fun s => s) (fun a b hab => hab) "img" "lbl" "n1" "n2" (by decide)
  exact ⟨h.1, h.2 "ih" "lh" "ih" "lh" rfl rfl⟩

end Annot
